import Mathlib

/-!
Shallow embedding of the `SimpleVector<Type>` container from
`src/simple_vector.h` (a generic resizable-array container), together with
theorems settling the specification claims about it.

Modelling conventions:
* The element type is an arbitrary `α` with a default value (`Inhabited α`),
  standing for the C++ `Type` with its default constructor.
* The raw buffer owned through `ArrayPtr<Type>` is modelled as a total
  function `Nat → α` giving the content of every slot; `capacity_` records
  how many slots are allocated.  Slot contents outside `[0, capacity_)` are
  never observable through the container API under its caller contract.
* Iterators are element indices: `begin()` is index `0`, `end()` is index
  `size_`, and `pos - begin()` is the index `pos` itself.  The source allows
  `begin()`/`end()` of an empty container to be a null sentinel; both
  collapse to index `0` here, which matches the pointer arithmetic
  (`nullptr - nullptr == 0`) performed by `Insert` and `Erase`.
* `std::move` of elements is value copying: the claims are about the values
  stored, and moved-from slots are never read through the live range except
  where the theorems say so explicitly.
* `size_t` is modelled as `Nat`.  The only subtraction, `--size_` in
  `Erase`, happens under the documented caller contract that the erased
  position is live (`size_ > 0`), where `Nat` and `size_t` agree.
-/

/-- State of a `SimpleVector<Type>`: the owned buffer (slot contents), the
count of live elements `size_`, and the allocation size `capacity_`
(fields as in `src/simple_vector.h`, lines 283-285). -/
@[ext]
structure SimpleVector (α : Type) where
  items_ : Nat → α
  size_ : Nat
  capacity_ : Nat

namespace SimpleVector

variable {α : Type} [Inhabited α]

/-- Modelled from the spec: `array_ptr.h` is not under `src/`.  Per spec §3
(sized construction yields "N default-valued elements") and §4.2 (`Buffer<T>`
owns an allocation sized at construction), `ArrayPtr<Type>(size)` produces a
buffer whose slots hold default-constructed `Type` values. -/
def arrayPtrAlloc (size : Nat) : Nat → α :=
  fun _ => default

/-- Writing one slot of a buffer: `items_[i] = x`. -/
def setIdx (f : Nat → α) (i : Nat) (x : α) : Nat → α :=
  fun j => if j = i then x else f j

/-- `std::fill(begin + first, begin + last, x)`: slots `[first, last)` get `x`. -/
def fillRange (f : Nat → α) (first last : Nat) (x : α) : Nat → α :=
  fun j => if first ≤ j ∧ j < last then x else f j

/-- `std::copy`/`std::move` of the `n` slots `[0, n)` of buffer `src` onto the
front of buffer `dst` (both ranges starting at their `begin()`). -/
def copyRange (src : Nat → α) (n : Nat) (dst : Nat → α) : Nat → α :=
  fun j => if j < n then src j else dst j

/-- `std::copy(init.begin(), init.end(), begin())`: the elements of the
`initializer_list` land in slots `[0, init.length)`. -/
def copyList (src : List α) (dst : Nat → α) : Nat → α :=
  fun j => if h : j < src.length then src.get ⟨j, h⟩ else dst j

/-- `std::move_backward(begin + first, begin + last, begin + last + 1)`:
slots `(first, last]` receive the old content of the slot one to their left;
all other slots (including slot `first` itself) keep their content. -/
def moveBackwardRange (f : Nat → α) (first last : Nat) : Nat → α :=
  fun j => if first < j ∧ j ≤ last then f (j - 1) else f j

/-- `std::copy(make_move_iterator(it + 1), make_move_iterator(end()), it)`
with `it = begin + first` and `end = begin + last`: slots `[first, last - 1)`
receive the old content of the slot one to their right. -/
def moveForwardRange (f : Nat → α) (first last : Nat) : Nat → α :=
  fun j => if first ≤ j ∧ j + 1 < last then f (j + 1) else f j

/-- `GetSize()`. -/
def GetSize (v : SimpleVector α) : Nat :=
  v.size_

/-- `GetCapacity()`. -/
def GetCapacity (v : SimpleVector α) : Nat :=
  v.capacity_

/-- `IsEmpty()`. -/
def IsEmpty (v : SimpleVector α) : Bool :=
  v.GetSize == 0

/-- Unchecked `operator[]`. -/
def getIdx (v : SimpleVector α) (index : Nat) : α :=
  v.items_ index

/-- `begin()` as an element index (the null sentinel of the empty container
coincides with index `0`). -/
def beginIdx (v : SimpleVector α) : Nat :=
  0

/-- `end()` as an element index: one past the last live element. -/
def endIdx (v : SimpleVector α) : Nat :=
  v.GetSize

/-- The default constructor `SimpleVector()`: null buffer, `size_ = 0`,
`capacity_ = 0`. -/
def defaultCtor : SimpleVector α :=
  ⟨arrayPtrAlloc 0, 0, 0⟩

/-- `SimpleVector(size_t size)`: buffer of `size` default-valued elements,
`size_ = capacity_ = size` (lines 32-34). -/
def sizedCtor (size : Nat) : SimpleVector α :=
  ⟨arrayPtrAlloc size, size, size⟩

/-- `SimpleVector(size_t size, const Type& value)`: the sized constructor
followed by `std::fill(begin(), end(), value)` (lines 37-40). -/
def fillCtor (size : Nat) (value : α) : SimpleVector α :=
  let v : SimpleVector α := sizedCtor size
  { v with items_ := fillRange v.items_ 0 v.GetSize value }

/-- `SimpleVector(std::initializer_list<Type> init)`: the sized constructor
for `init.size()` followed by copying `init` to `begin()` (lines 43-46). -/
def initListCtor (init : List α) : SimpleVector α :=
  let v : SimpleVector α := sizedCtor init.length
  { v with items_ := copyList init v.items_ }

/-- The copy constructor (lines 48-51): the sized constructor for
`other.GetSize()` followed by copying `other`'s live range to `begin()`. -/
def copyCtor (other : SimpleVector α) : SimpleVector α :=
  let v : SimpleVector α := sizedCtor other.GetSize
  { v with items_ := copyRange other.items_ other.GetSize v.items_ }

/-- The move constructor (lines 53-57): the new container takes the buffer,
size and capacity; the source is left with a null buffer and zeroes.
Returns (constructed container, state the source is left in). -/
def moveCtor (other : SimpleVector α) : SimpleVector α × SimpleVector α :=
  (⟨other.items_, other.size_, other.capacity_⟩, ⟨arrayPtrAlloc 0, 0, 0⟩)

/-- `swap(SimpleVector& other)` (lines 166-170): the two states are
exchanged.  Returns (new state of `*this*`, new state of `other`). -/
def swap (v other : SimpleVector α) : SimpleVector α × SimpleVector α :=
  (other, v)

/-- Body of `Resize(new_size)` (lines 207-227), parameterized by the
function used for the `Reserve(new_size)` call so that the mutual recursion
between `Resize` and `Reserve` can be tied below. -/
def ResizeF (reserveFn : SimpleVector α → Nat → SimpleVector α)
    (v : SimpleVector α) (new_size : Nat) : SimpleVector α :=
  if new_size < v.GetSize then
    { v with size_ := new_size }
  else if v.GetSize < new_size then
    let w :=
      if v.GetCapacity < new_size then
        reserveFn v new_size
      else
        { v with items_ := fillRange v.items_ v.GetSize new_size default }
    { w with size_ := new_size }
  else
    v

/-- Body of `Reserve(new_capacity)` (lines 229-236), parameterized by the
function used for the `tmp.Resize(GetCapacity())` call.  On growth: build
`tmp` with the sized constructor, resize it to `GetCapacity()` (the source
really passes the capacity here, not the size), move the live range
`[begin(), end())` onto `tmp.begin()`, and swap with `tmp`. -/
def ReserveF (resizeFn : SimpleVector α → Nat → SimpleVector α)
    (v : SimpleVector α) (new_capacity : Nat) : SimpleVector α :=
  if v.GetCapacity < new_capacity then
    let tmp : SimpleVector α := sizedCtor new_capacity
    let tmp2 := resizeFn tmp v.GetCapacity
    let tmp3 := { tmp2 with items_ := copyRange v.items_ v.GetSize tmp2.items_ }
    (swap v tmp3).1
  else
    v

/-- Closes the `Resize`/`Reserve` recursion.  Inside `Reserve`, the call
`tmp.Resize(GetCapacity())` always takes the truncation branch (`tmp` was
just built with `size_ = new_capacity > GetCapacity()`), which performs no
nested `Reserve`; so the reserve callback passed here is never consulted.
`Reserve_fix` below proves that the resulting `Reserve` satisfies the
mutual-recursion equation. -/
def reserveNever : SimpleVector α → Nat → SimpleVector α :=
  fun v _ => v

/-- `Reserve(new_capacity)` (lines 229-236). -/
def Reserve (v : SimpleVector α) (new_capacity : Nat) : SimpleVector α :=
  ReserveF (ResizeF reserveNever) v new_capacity

/-- `Resize(new_size)` (lines 207-227). -/
def Resize (v : SimpleVector α) (new_size : Nat) : SimpleVector α :=
  ResizeF Reserve v new_size

/-- `DoubleIfFull()` (lines 287-291): when full, reserve double the capacity
(or `1` from capacity `0`). -/
def DoubleIfFull (v : SimpleVector α) : SimpleVector α :=
  if v.GetSize = v.GetCapacity then
    Reserve v (if v.GetCapacity ≠ 0 then v.GetCapacity * 2 else 1)
  else v

/-- `PushBack(item)` (lines 99-107; both overloads store the same value):
grow if full, then `(*this)[size_++] = item`. -/
def PushBack (v : SimpleVector α) (item : α) : SimpleVector α :=
  let w := DoubleIfFull v
  { w with items_ := setIdx w.items_ w.GetSize item, size_ := w.GetSize + 1 }

/-- `PopBack()` (lines 110-114): decrement `size_` unless empty. -/
def PopBack (v : SimpleVector α) : SimpleVector α :=
  if !v.IsEmpty then { v with size_ := v.GetSize - 1 } else v

/-- `Insert(pos, value)` (lines 120-146; both overloads store the same
value): remember `index = pos - begin()`, grow if full, shift `[index,
size_)` one slot toward the tail, write `value` at `index`, increment
`size_`; returns an iterator to the inserted element, here its index. -/
def Insert (v : SimpleVector α) (pos : Nat) (value : α) : Nat × SimpleVector α :=
  let index := pos - v.beginIdx
  let w := DoubleIfFull v
  let w2 := { w with items_ := moveBackwardRange w.items_ index w.GetSize }
  let w3 := { w2 with items_ := setIdx w2.items_ index value, size_ := w2.GetSize + 1 }
  (index, w3)

/-- `Erase(pos)` (lines 149-163): `index = pos - begin()`, shift
`(index, size_)` one slot toward the head, decrement `size_`; returns
`end()` when the erased element was the last one, otherwise an iterator to
index `index`. -/
def Erase (v : SimpleVector α) (pos : Nat) : Nat × SimpleVector α :=
  let index := pos - v.beginIdx
  let w := { v with items_ := moveForwardRange v.items_ index v.GetSize }
  let w2 := { w with size_ := w.GetSize - 1 }
  if index = w2.GetSize then (w2.endIdx, w2) else (index, w2)

/-- `At(index)` (lines 184-198; the const overload forwards to this one):
out-of-range error for `index >= size_`, otherwise the element. -/
def At (v : SimpleVector α) (index : Nat) : Except String α :=
  if v.GetSize ≤ index then
    Except.error "Index out of range"
  else
    Except.ok (v.getIdx index)

/-- `Clear()` (lines 201-203): `size_ = 0`. -/
def Clear (v : SimpleVector α) : SimpleVector α :=
  { v with size_ := 0 }

/-- `SimpleVector(ReserveProxyObj)` (lines 59-61): default-initialize the
members, then `Reserve(capacity_to_reserve)`. -/
def reserveCtor (capacity_to_reserve : Nat) : SimpleVector α :=
  Reserve defaultCtor capacity_to_reserve

/-- Copy assignment (lines 63-70), in the non-self-assignment case the
pointer test selects: copy-and-swap, so `*this` becomes a copy of `rhs`
(self-assignment leaves the state unchanged and is not modelled, pointer
identity having no counterpart on values). -/
def copyAssign (v rhs : SimpleVector α) : SimpleVector α :=
  (swap v (copyCtor rhs)).1

/-- Move assignment (lines 72-80), non-self case: `*this` takes `rhs`'s
buffer, size and capacity; `rhs` is zeroed.  Returns (new `*this*`, state
`rhs` is left in). -/
def moveAssign (v rhs : SimpleVector α) : SimpleVector α × SimpleVector α :=
  (⟨rhs.items_, rhs.size_, rhs.capacity_⟩, ⟨arrayPtrAlloc 0, 0, 0⟩)

/-- The documented representation invariant `0 ≤ size_ ≤ capacity_`
(spec §3; the lower bound is inherent to `Nat`/`size_t`). -/
def SizeInv (v : SimpleVector α) : Prop :=
  v.GetSize ≤ v.GetCapacity

/-- A growing `Reserve` in closed form: fresh default-valued buffer of `k`
slots with the old live range copied onto its front, `size_` set to the OLD
CAPACITY (faithful to `tmp.Resize(GetCapacity())` in the source), capacity
`k`. -/
theorem Reserve_grow (v : SimpleVector α) (k : Nat) (h : v.GetCapacity < k) :
    Reserve v k =
      ⟨copyRange v.items_ v.GetSize (arrayPtrAlloc k), v.GetCapacity, k⟩ := by
  have h2 : v.capacity_ < k := h
  simp [Reserve, ReserveF, ResizeF, sizedCtor, swap, GetSize, GetCapacity, h2]

/-- `Reserve` with a target not above the capacity is a no-op. -/
theorem Reserve_noop (v : SimpleVector α) (k : Nat) (h : k ≤ v.GetCapacity) :
    Reserve v k = v := by
  have h2 : ¬ v.capacity_ < k := Nat.not_lt.mpr h
  simp [Reserve, ReserveF, GetCapacity, h2]

/-- The knot-tying definition of `Reserve` satisfies the mutual-recursion
equation of the source: `Reserve` applied to the real `Resize` callback. -/
theorem Reserve_fix (v : SimpleVector α) (k : Nat) :
    Reserve v k = ReserveF Resize v k := by
  by_cases h : v.capacity_ < k
  · simp [Reserve, Resize, ReserveF, ResizeF, sizedCtor, swap, GetSize,
      GetCapacity, h]
  · simp [Reserve, ReserveF, GetCapacity, h]

/-- `DoubleIfFull` preserves the size (when full, `size_ = capacity_`, so
the buggy `tmp.Resize(GetCapacity())` inside `Reserve` is harmless here). -/
theorem DoubleIfFull_size (v : SimpleVector α) :
    (DoubleIfFull v).GetSize = v.GetSize := by
  unfold DoubleIfFull
  by_cases h : v.GetSize = v.GetCapacity
  · rw [if_pos h]
    have hlt : v.GetCapacity < if v.GetCapacity ≠ 0 then v.GetCapacity * 2 else 1 := by
      by_cases h0 : v.GetCapacity = 0 <;> simp [h0] <;> omega
    rw [Reserve_grow v _ hlt]
    simpa [GetSize, GetCapacity] using h.symm
  · rw [if_neg h]

/-- `DoubleIfFull` preserves the live elements. -/
theorem DoubleIfFull_getIdx (v : SimpleVector α) (j : Nat) (h : j < v.GetSize) :
    (DoubleIfFull v).getIdx j = v.getIdx j := by
  unfold DoubleIfFull
  by_cases hf : v.GetSize = v.GetCapacity
  · rw [if_pos hf]
    have hlt : v.GetCapacity < if v.GetCapacity ≠ 0 then v.GetCapacity * 2 else 1 := by
      by_cases h0 : v.GetCapacity = 0 <;> simp [h0] <;> omega
    rw [Reserve_grow v _ hlt]
    simp [getIdx, copyRange, h]
  · rw [if_neg hf]

/-- Capacity after `DoubleIfFull` on a full container: doubled, or `1` from
capacity `0`. -/
theorem DoubleIfFull_cap_full (v : SimpleVector α) (h : v.GetSize = v.GetCapacity) :
    (DoubleIfFull v).GetCapacity =
      if v.GetCapacity = 0 then 1 else v.GetCapacity * 2 := by
  unfold DoubleIfFull
  rw [if_pos h]
  have hlt : v.GetCapacity < if v.GetCapacity ≠ 0 then v.GetCapacity * 2 else 1 := by
    by_cases h0 : v.GetCapacity = 0 <;> simp [h0] <;> omega
  rw [Reserve_grow v _ hlt]
  by_cases h0 : v.GetCapacity = 0 <;> simp [GetCapacity, h0]

/-- `DoubleIfFull` on a non-full container is the identity. -/
theorem DoubleIfFull_not_full (v : SimpleVector α) (h : v.GetSize ≠ v.GetCapacity) :
    DoubleIfFull v = v := by
  unfold DoubleIfFull
  rw [if_neg h]

/-- On a well-formed container, `DoubleIfFull` leaves at least one free
slot. -/
theorem DoubleIfFull_lt (v : SimpleVector α) (h : SizeInv v) :
    (DoubleIfFull v).GetSize < (DoubleIfFull v).GetCapacity := by
  by_cases hf : v.GetSize = v.GetCapacity
  · rw [DoubleIfFull_size, DoubleIfFull_cap_full v hf]
    by_cases h0 : v.GetCapacity = 0 <;> simp [h0, hf] <;> omega
  · rw [DoubleIfFull_size, DoubleIfFull_not_full v hf]
    exact Nat.lt_of_le_of_ne h hf

/-- C1: the claim "Reserve(k) with k > Capacity() leaves Size() unchanged"
fails on the code.  Concretely: after `PushBack 10; PushBack 20; PopBack`
the container has size 1 and capacity 2, but `Reserve 5` produces size 2 —
`Reserve` sizes its temporary with `tmp.Resize(GetCapacity())`, adopting the
old capacity as the new size.  Capacity does become exactly 5 and the old
live range (here the single element 10) is preserved. -/
theorem C1_Reserve_grow_changes_size :
    ((PopBack (PushBack (PushBack (defaultCtor : SimpleVector Nat) 10) 20)).GetSize = 1 ∧
      (PopBack (PushBack (PushBack (defaultCtor : SimpleVector Nat) 10) 20)).GetCapacity = 2) ∧
    (Reserve (PopBack (PushBack (PushBack (defaultCtor : SimpleVector Nat) 10) 20)) 5).GetSize = 2 ∧
    (Reserve (PopBack (PushBack (PushBack (defaultCtor : SimpleVector Nat) 10) 20)) 5).GetCapacity = 5 ∧
    (Reserve (PopBack (PushBack (PushBack (defaultCtor : SimpleVector Nat) 10) 20)) 5).getIdx 0 = 10 := by
  decide

/-- C2: `PushBack` appends the value at index `old Size()`, increments the
size by one, preserves all previously stored elements in order, and grows
the capacity exactly when the container was full: to double the old
capacity, or to `1` from capacity `0`; otherwise the capacity is
unchanged. -/
theorem C2_PushBack_correct (v : SimpleVector α) (x : α) :
    (v.PushBack x).GetSize = v.GetSize + 1 ∧
    (v.PushBack x).getIdx v.GetSize = x ∧
    (∀ i, i < v.GetSize → (v.PushBack x).getIdx i = v.getIdx i) ∧
    (v.GetSize = v.GetCapacity →
      (v.PushBack x).GetCapacity = if v.GetCapacity = 0 then 1 else v.GetCapacity * 2) ∧
    (v.GetSize ≠ v.GetCapacity → (v.PushBack x).GetCapacity = v.GetCapacity) := by
  have hsz := DoubleIfFull_size v
  refine ⟨?_, ?_, ?_, ?_, ?_⟩
  · show (DoubleIfFull v).GetSize + 1 = v.GetSize + 1
    omega
  · show setIdx (DoubleIfFull v).items_ (DoubleIfFull v).GetSize x v.GetSize = x
    simp [setIdx, hsz]
  · intro i hi
    show setIdx (DoubleIfFull v).items_ (DoubleIfFull v).GetSize x i = v.getIdx i
    have hne : i ≠ (DoubleIfFull v).GetSize := by omega
    simpa [setIdx, hne] using DoubleIfFull_getIdx v i hi
  · intro hf
    show (DoubleIfFull v).GetCapacity = _
    exact DoubleIfFull_cap_full v hf
  · intro hf
    show (DoubleIfFull v).GetCapacity = v.GetCapacity
    rw [DoubleIfFull_not_full v hf]

/-- C2 witness: pushing 7 onto the full two-element container `[5, 6]`. -/
theorem C2_PushBack_correct_witness :
    1 < (initListCtor [5, 6] : SimpleVector Nat).GetSize ∧
    (PushBack (initListCtor [5, 6] : SimpleVector Nat) 7).getIdx 1 =
      (initListCtor [5, 6] : SimpleVector Nat).getIdx 1 ∧
    (PushBack (initListCtor [5, 6] : SimpleVector Nat) 7).GetCapacity = 4 :=
  ⟨by decide,
   (C2_PushBack_correct (initListCtor [5, 6]) 7).2.2.1 1 (by decide),
   by
    have h := (C2_PushBack_correct (initListCtor [5, 6] : SimpleVector Nat) 7).2.2.2.1
      (by decide)
    simpa using h⟩

/-- C3: `Insert` at a valid position `pos ≤ Size()` returns an iterator to
index `pos`, increments the size, writes the value at index `pos`, keeps
the elements before `pos` and shifts the elements from `pos` on one slot
toward the tail, and grows the capacity by the `PushBack` doubling rule
exactly when the container was full. -/
theorem C3_Insert_correct (v : SimpleVector α) (pos : Nat) (value : α)
    (hpos : pos ≤ v.GetSize) :
    (v.Insert pos value).1 = pos ∧
    (v.Insert pos value).2.GetSize = v.GetSize + 1 ∧
    (v.Insert pos value).2.getIdx pos = value ∧
    (∀ j, j < pos → (v.Insert pos value).2.getIdx j = v.getIdx j) ∧
    (∀ j, pos ≤ j → j < v.GetSize →
      (v.Insert pos value).2.getIdx (j + 1) = v.getIdx j) ∧
    (v.GetSize = v.GetCapacity →
      (v.Insert pos value).2.GetCapacity =
        if v.GetCapacity = 0 then 1 else v.GetCapacity * 2) ∧
    (v.GetSize ≠ v.GetCapacity → (v.Insert pos value).2.GetCapacity = v.GetCapacity) := by
  have hsz := DoubleIfFull_size v
  refine ⟨rfl, ?_, ?_, ?_, ?_, ?_, ?_⟩
  · show (DoubleIfFull v).GetSize + 1 = v.GetSize + 1
    omega
  · show setIdx (moveBackwardRange (DoubleIfFull v).items_ pos (DoubleIfFull v).GetSize)
      pos value pos = value
    simp [setIdx]
  · intro j hj
    show setIdx (moveBackwardRange (DoubleIfFull v).items_ pos (DoubleIfFull v).GetSize)
      pos value j = v.getIdx j
    have hne : j ≠ pos := by omega
    have hnc : ¬ (pos < j ∧ j ≤ (DoubleIfFull v).GetSize) := by omega
    simp only [setIdx, moveBackwardRange]
    rw [if_neg hne, if_neg hnc]
    exact DoubleIfFull_getIdx v j (by omega)
  · intro j hj1 hj2
    show setIdx (moveBackwardRange (DoubleIfFull v).items_ pos (DoubleIfFull v).GetSize)
      pos value (j + 1) = v.getIdx j
    have hne : j + 1 ≠ pos := by omega
    have hc : pos < j + 1 ∧ j + 1 ≤ (DoubleIfFull v).GetSize := by omega
    simp only [setIdx, moveBackwardRange]
    rw [if_neg hne, if_pos hc]
    simpa using DoubleIfFull_getIdx v j hj2
  · intro hf
    show (DoubleIfFull v).GetCapacity = _
    exact DoubleIfFull_cap_full v hf
  · intro hf
    show (DoubleIfFull v).GetCapacity = v.GetCapacity
    rw [DoubleIfFull_not_full v hf]

/-- C3 witness: inserting 7 at index 1 of the full container `[5, 6]`. -/
theorem C3_Insert_correct_witness :
    1 ≤ (initListCtor [5, 6] : SimpleVector Nat).GetSize ∧
    (Insert (initListCtor [5, 6] : SimpleVector Nat) 1 7).2.getIdx 1 = 7 ∧
    (Insert (initListCtor [5, 6] : SimpleVector Nat) 1 7).2.getIdx 2 =
      (initListCtor [5, 6] : SimpleVector Nat).getIdx 1 :=
  ⟨by decide,
   (C3_Insert_correct (initListCtor [5, 6]) 1 7 (by decide)).2.2.1,
   (C3_Insert_correct (initListCtor [5, 6]) 1 7 (by decide)).2.2.2.2.1 1
     (by decide) (by decide)⟩

/-- C4: `Erase` at a live position `pos < Size()` decrements the size,
keeps the capacity, keeps the elements before `pos`, shifts the elements
after `pos` one slot toward the head, and returns an iterator to index
`pos` — which is `end()` of the result exactly when the erased element was
the last one. -/
theorem C4_Erase_correct (v : SimpleVector α) (pos : Nat) (hpos : pos < v.GetSize) :
    (v.Erase pos).2.GetSize = v.GetSize - 1 ∧
    (v.Erase pos).2.GetCapacity = v.GetCapacity ∧
    (∀ j, j < pos → (v.Erase pos).2.getIdx j = v.getIdx j) ∧
    (∀ j, pos ≤ j → j + 1 < v.GetSize →
      (v.Erase pos).2.getIdx j = v.getIdx (j + 1)) ∧
    (v.Erase pos).1 = pos ∧
    (pos + 1 = v.GetSize → (v.Erase pos).1 = (v.Erase pos).2.endIdx) := by
  have h2 : (v.Erase pos).2 =
      ⟨moveForwardRange v.items_ pos v.GetSize, v.GetSize - 1, v.GetCapacity⟩ := by
    simp only [Erase]
    split <;> rfl
  have h1 : (v.Erase pos).1 = pos := by
    simp only [Erase]
    split
    next heq => simpa [endIdx, GetSize, beginIdx] using heq.symm
    next => simp [beginIdx]
  refine ⟨?_, ?_, ?_, ?_, h1, ?_⟩
  · rw [h2]
    rfl
  · rw [h2]
    rfl
  · intro j hj
    rw [h2]
    show moveForwardRange v.items_ pos v.GetSize j = v.getIdx j
    simp only [moveForwardRange]
    rw [if_neg (by omega)]
    rfl
  · intro j hj1 hj2
    rw [h2]
    show moveForwardRange v.items_ pos v.GetSize j = v.getIdx (j + 1)
    simp only [moveForwardRange]
    rw [if_pos ⟨hj1, hj2⟩]
    rfl
  · intro hlast
    rw [h1, h2]
    show pos = v.GetSize - 1
    omega

/-- C4 witness: erasing index 0 of `[3, 4]`. -/
theorem C4_Erase_correct_witness :
    0 < (initListCtor [3, 4] : SimpleVector Nat).GetSize ∧
    (Erase (initListCtor [3, 4] : SimpleVector Nat) 0).2.getIdx 0 =
      (initListCtor [3, 4] : SimpleVector Nat).getIdx 1 ∧
    (Erase (initListCtor [3, 4] : SimpleVector Nat) 0).2.GetSize = 1 :=
  ⟨by decide,
   (C4_Erase_correct (initListCtor [3, 4]) 0 (by decide)).2.2.2.1 0
     (by decide) (by decide),
   ((C4_Erase_correct (initListCtor [3, 4]) 0 (by decide)).1).trans (by decide)⟩

/-- C5: inserting at `end()` is state-for-state identical to `PushBack`:
the resulting containers agree on the buffer, the size and the capacity. -/
theorem C5_Insert_end_eq_PushBack (v : SimpleVector α) (x : α) :
    (v.Insert v.endIdx x).2 = v.PushBack x := by
  have hsz := DoubleIfFull_size v
  show ({ DoubleIfFull v with
      items_ := setIdx
        (moveBackwardRange (DoubleIfFull v).items_ (v.endIdx - v.beginIdx)
          (DoubleIfFull v).GetSize)
        (v.endIdx - v.beginIdx) x,
      size_ := (DoubleIfFull v).GetSize + 1 } : SimpleVector α) =
    { DoubleIfFull v with
      items_ := setIdx (DoubleIfFull v).items_ (DoubleIfFull v).GetSize x,
      size_ := (DoubleIfFull v).GetSize + 1 }
  have hidx : v.endIdx - v.beginIdx = (DoubleIfFull v).GetSize := by
    simp [endIdx, beginIdx, hsz]
  rw [hidx]
  have hmv : moveBackwardRange (DoubleIfFull v).items_ (DoubleIfFull v).GetSize
      (DoubleIfFull v).GetSize = (DoubleIfFull v).items_ := by
    funext j
    simp only [moveBackwardRange]
    have : ¬ ((DoubleIfFull v).GetSize < j ∧ j ≤ (DoubleIfFull v).GetSize) := by omega
    rw [if_neg this]
  rw [hmv]

/-- C7: `At` signals the out-of-range error exactly when the index is not
below the size, and otherwise returns the same element as unchecked
access.  (`At` reads the container without mutating it, so size, capacity
and elements are trivially unchanged in this embedding.) -/
theorem C7_At_correct (v : SimpleVector α) (i : Nat) :
    (v.GetSize ≤ i → v.At i = Except.error "Index out of range") ∧
    (i < v.GetSize → v.At i = Except.ok (v.getIdx i)) := by
  constructor
  · intro h
    unfold At
    rw [if_pos h]
  · intro h
    unfold At
    rw [if_neg (by omega)]

/-- C7 witness: on the container `[4, 5]`, `At 5` errors and `At 1`
returns the element. -/
theorem C7_At_correct_witness :
    (initListCtor [4, 5] : SimpleVector Nat).At 5 = Except.error "Index out of range" ∧
    (initListCtor [4, 5] : SimpleVector Nat).At 1 =
      Except.ok ((initListCtor [4, 5] : SimpleVector Nat).getIdx 1) :=
  ⟨(C7_At_correct (initListCtor [4, 5]) 5).1 (by decide),
   (C7_At_correct (initListCtor [4, 5]) 1).2 (by decide)⟩

/-- C8: neither `PopBack` (including the empty no-op), nor `Clear`, nor a
shrinking `Resize` ever changes the capacity. -/
theorem C8_capacity_never_shrinks (v : SimpleVector α) :
    v.PopBack.GetCapacity = v.GetCapacity ∧
    v.Clear.GetCapacity = v.GetCapacity ∧
    (∀ n, n < v.GetSize → (v.Resize n).GetCapacity = v.GetCapacity) := by
  refine ⟨?_, rfl, ?_⟩
  · unfold PopBack
    split <;> rfl
  · intro n h
    unfold Resize ResizeF
    rw [if_pos h]
    rfl

/-- C8 witness: shrinking `[3, 4, 5]` to one element keeps capacity 3. -/
theorem C8_capacity_never_shrinks_witness :
    1 < (initListCtor [3, 4, 5] : SimpleVector Nat).GetSize ∧
    (Resize (initListCtor [3, 4, 5] : SimpleVector Nat) 1).GetCapacity =
      (initListCtor [3, 4, 5] : SimpleVector Nat).GetCapacity :=
  ⟨by decide,
   (C8_capacity_never_shrinks (initListCtor [3, 4, 5])).2.2 1 (by decide)⟩

/-- C6: `Resize n` truncates (keeping the first `n` elements and the
capacity) when `n < Size()`; when `n > Size()` it keeps the old elements,
default-fills `[old Size(), n)`, sets the size to `n`, and the capacity
becomes exactly `n` when `n` exceeded it (no doubling headroom) and is
unchanged otherwise; `Resize Size()` is the identity. -/
theorem C6_Resize_correct (v : SimpleVector α) (n : Nat) :
    (n < v.GetSize →
      (v.Resize n).GetSize = n ∧
      (v.Resize n).GetCapacity = v.GetCapacity ∧
      (∀ i, i < n → (v.Resize n).getIdx i = v.getIdx i)) ∧
    (v.GetSize < n →
      (v.Resize n).GetSize = n ∧
      (∀ i, i < v.GetSize → (v.Resize n).getIdx i = v.getIdx i) ∧
      (∀ i, v.GetSize ≤ i → i < n → (v.Resize n).getIdx i = default) ∧
      (v.GetCapacity < n → (v.Resize n).GetCapacity = n) ∧
      (n ≤ v.GetCapacity → (v.Resize n).GetCapacity = v.GetCapacity)) ∧
    (n = v.GetSize → v.Resize n = v) := by
  refine ⟨?_, ?_, ?_⟩
  · intro h
    unfold Resize ResizeF
    rw [if_pos h]
    exact ⟨rfl, rfl, fun i _ => rfl⟩
  · intro h
    unfold Resize ResizeF
    rw [if_neg (by omega), if_pos h]
    by_cases hc : v.GetCapacity < n
    · rw [if_pos hc, Reserve_grow v n hc]
      refine ⟨rfl, ?_, ?_, fun _ => rfl, fun hle => absurd hc (by omega)⟩
      · intro i hi
        have hi2 : i < v.size_ := hi
        show copyRange v.items_ v.GetSize (arrayPtrAlloc n) i = v.getIdx i
        simp [copyRange, GetSize, hi2]
        rfl
      · intro i hi1 hi2
        have hi3 : ¬ i < v.size_ := Nat.not_lt.mpr hi1
        show copyRange v.items_ v.GetSize (arrayPtrAlloc n) i = default
        simp [copyRange, GetSize, hi3, arrayPtrAlloc]
    · rw [if_neg hc]
      refine ⟨rfl, ?_, ?_, fun hlt => absurd hlt hc, fun _ => rfl⟩
      · intro i hi
        show fillRange v.items_ v.GetSize n default i = v.getIdx i
        simp only [fillRange]
        rw [if_neg (by omega)]
        rfl
      · intro i hi1 hi2
        show fillRange v.items_ v.GetSize n default i = default
        simp only [fillRange]
        rw [if_pos ⟨hi1, hi2⟩]
  · intro h
    unfold Resize ResizeF
    rw [if_neg (by omega), if_neg (by omega)]

/-- C6 witness: on size-1, capacity-2 `[1, _]`: `Resize 2` default-fills
index 1 within capacity; `Resize 5` sets capacity exactly 5; `Resize 1` on
`[1, 2]` truncates to size 1. -/
theorem C6_Resize_correct_witness :
    (Resize (PopBack (initListCtor [1, 2] : SimpleVector Nat)) 2).getIdx 1 = default ∧
    (Resize (PopBack (initListCtor [1, 2] : SimpleVector Nat)) 5).GetCapacity = 5 ∧
    (Resize (initListCtor [1, 2] : SimpleVector Nat) 1).GetSize = 1 :=
  ⟨((C6_Resize_correct (PopBack (initListCtor [1, 2])) 2).2.1 (by decide)).2.2.1 1
     (by decide) (by decide),
   ((C6_Resize_correct (PopBack (initListCtor [1, 2])) 5).2.1 (by decide)).2.2.2.1
     (by decide),
   ((C6_Resize_correct (initListCtor [1, 2]) 1).1 (by decide)).1⟩

/-- C9: the invariant `size_ ≤ capacity_` holds for every constructor and
is preserved by every operation (for `Erase` under its documented caller
contract that the erased position is live). -/
theorem C9_size_le_capacity :
    SizeInv (defaultCtor : SimpleVector α) ∧
    (∀ n, SizeInv (sizedCtor n : SimpleVector α)) ∧
    (∀ n x, SizeInv (fillCtor n x : SimpleVector α)) ∧
    (∀ l : List α, SizeInv (initListCtor l)) ∧
    (∀ v : SimpleVector α, SizeInv (copyCtor v)) ∧
    (∀ v : SimpleVector α, SizeInv v → SizeInv (moveCtor v).1 ∧ SizeInv (moveCtor v).2) ∧
    (∀ k, SizeInv (reserveCtor k : SimpleVector α)) ∧
    (∀ (v : SimpleVector α) (x : α), SizeInv v → SizeInv (v.PushBack x)) ∧
    (∀ v : SimpleVector α, SizeInv v → SizeInv v.PopBack) ∧
    (∀ (v : SimpleVector α) (pos : Nat) (x : α), SizeInv v → SizeInv (v.Insert pos x).2) ∧
    (∀ (v : SimpleVector α) (pos : Nat), SizeInv v → pos < v.GetSize →
      SizeInv (v.Erase pos).2) ∧
    (∀ v : SimpleVector α, SizeInv v → SizeInv v.Clear) ∧
    (∀ (v : SimpleVector α) (n : Nat), SizeInv v → SizeInv (v.Resize n)) ∧
    (∀ (v : SimpleVector α) (k : Nat), SizeInv v → SizeInv (v.Reserve k)) ∧
    (∀ v w : SimpleVector α, SizeInv v → SizeInv w →
      SizeInv (swap v w).1 ∧ SizeInv (swap v w).2) ∧
    (∀ v rhs : SimpleVector α, SizeInv rhs → SizeInv (copyAssign v rhs)) ∧
    (∀ v rhs : SimpleVector α, SizeInv rhs →
      SizeInv (moveAssign v rhs).1 ∧ SizeInv (moveAssign v rhs).2) := by
  have hres : ∀ (v : SimpleVector α) (k : Nat), SizeInv v → SizeInv (v.Reserve k) := by
    intro v k h
    by_cases hk : v.GetCapacity < k
    · rw [Reserve_grow v k hk]
      show v.GetCapacity ≤ k
      omega
    · rw [Reserve_noop v k (by omega)]
      exact h
  refine ⟨Nat.le_refl 0, fun n => Nat.le_refl n, fun n x => Nat.le_refl n,
    fun l => Nat.le_refl l.length, fun v => Nat.le_refl v.GetSize,
    fun v h => ⟨h, Nat.le_refl 0⟩, ?_, ?_, ?_, ?_, ?_,
    fun v h => Nat.zero_le _, ?_, hres,
    fun v w hv hw => ⟨hw, hv⟩, fun v rhs h => Nat.le_refl rhs.GetSize, ?_⟩
  · intro k
    exact hres defaultCtor k (Nat.le_refl 0)
  · intro v x h
    exact DoubleIfFull_lt v h
  · intro v h
    unfold PopBack
    split
    · show v.GetSize - 1 ≤ v.GetCapacity
      unfold SizeInv at h
      omega
    · exact h
  · intro v pos x h
    exact DoubleIfFull_lt v h
  · intro v pos h hpos
    have h2 : (v.Erase pos).2 =
        ⟨moveForwardRange v.items_ pos v.GetSize, v.GetSize - 1, v.GetCapacity⟩ := by
      simp only [Erase]
      split <;> rfl
    rw [h2]
    show v.GetSize - 1 ≤ v.GetCapacity
    unfold SizeInv at h
    omega
  · intro v n h
    unfold Resize ResizeF
    by_cases h1 : n < v.GetSize
    · rw [if_pos h1]
      show n ≤ v.GetCapacity
      unfold SizeInv at h
      omega
    · rw [if_neg h1]
      by_cases h2 : v.GetSize < n
      · rw [if_pos h2]
        by_cases hc : v.GetCapacity < n
        · rw [if_pos hc, Reserve_grow v n hc]
          exact Nat.le_refl n
        · rw [if_neg hc]
          show n ≤ v.GetCapacity
          omega
      · rw [if_neg h2]
        exact h
  · intro v rhs h
    exact ⟨h, Nat.le_refl 0⟩

/-- C9 witness: the invariant is preserved by a concrete `PushBack` onto a
well-formed container. -/
theorem C9_size_le_capacity_witness :
    SizeInv (PushBack (initListCtor [1] : SimpleVector Nat) 2) :=
  C9_size_le_capacity.2.2.2.2.2.2.2.1 (initListCtor [1]) 2
    (show (initListCtor [1] : SimpleVector Nat).GetSize ≤
      (initListCtor [1] : SimpleVector Nat).GetCapacity by decide)

/-- C10: the copy constructor copies the size and the live elements but
sizes its allocation from `other.GetSize()`, so the copy's capacity equals
the source's SIZE; when the source has excess capacity the copy's capacity
is strictly smaller than the source's. -/
theorem C10_copyCtor_capacity_is_size (v : SimpleVector α) :
    (copyCtor v).GetSize = v.GetSize ∧
    (copyCtor v).GetCapacity = v.GetSize ∧
    (∀ i, i < v.GetSize → (copyCtor v).getIdx i = v.getIdx i) ∧
    (v.GetSize < v.GetCapacity → (copyCtor v).GetCapacity < v.GetCapacity) := by
  refine ⟨rfl, rfl, ?_, ?_⟩
  · intro i h
    have h2 : i < v.size_ := h
    simp [copyCtor, sizedCtor, getIdx, copyRange, GetSize, h2]
  · intro h
    exact h

/-- C10 witness: copying a size-1, capacity-2 container yields capacity 1
with the element preserved. -/
theorem C10_copyCtor_capacity_is_size_witness :
    0 < (PopBack (initListCtor [8, 9] : SimpleVector Nat)).GetSize ∧
    (copyCtor (PopBack (initListCtor [8, 9] : SimpleVector Nat))).getIdx 0 =
      (PopBack (initListCtor [8, 9] : SimpleVector Nat)).getIdx 0 ∧
    (copyCtor (PopBack (initListCtor [8, 9] : SimpleVector Nat))).GetCapacity <
      (PopBack (initListCtor [8, 9] : SimpleVector Nat)).GetCapacity :=
  ⟨by decide,
   (C10_copyCtor_capacity_is_size (PopBack (initListCtor [8, 9]))).2.2.1 0 (by decide),
   (C10_copyCtor_capacity_is_size (PopBack (initListCtor [8, 9]))).2.2.2 (by decide)⟩

end SimpleVector
